import Mathlib

/-!
Verification of the Tic-Tac-Toe rules engine (`src/script.js`).

The engine consists of two JavaScript modules:

* `GameBoard`: a closure over `board`, an array of 9 strings (`""` means
  empty), with operations `getBoard`, `setCell`, `resetBoard`.
* `GameController`: a closure over `players` (array of `Player`),
  `currentPlayerIndex` and `isGameOver`, with operations `startGame`,
  `playRound`, `checkWinner`, `getCurrentPlayer`, `resetGame`,
  `getIsGameOver`.

We embed the module state as an explicit record `GameState` threaded
through the operations.  JavaScript cells are strings; the board array
always has length 9 in every state the modules can produce (it is created
by `Array(9).fill("")` and only mutated by in-range single-cell
assignment), so in-range reads `board[i]` are modelled by `List.getD i ""`.
`checkWinner`'s `null` return is modelled by `none`, its `"tie"` return by
`some "tie"`, and a winning marker by `some m`.  A JavaScript `TypeError`
(reading a method of `undefined`, which happens in `playRound` when
`players` is still empty) is modelled by `Except.error`.
-/

set_option autoImplicit false

namespace TicTacToe

/-- A cell read `board[i]`.  On the length-9 boards the modules maintain,
every index `0 ≤ i < 9` is in range, so `getD` coincides with JavaScript
array indexing there. -/
def cell (b : List String) (i : Nat) : String :=
  b.getD i ""

/-- `GameBoard.setCell(index, value)` from `src/script.js`:
succeeds exactly when `index >= 0 && index < 9 && board[index] === ""`,
writing `value` at `index`; otherwise it leaves the board alone.
Returns the boolean result paired with the (possibly updated) board. -/
def setCell (b : List String) (index : Int) (value : String) : Bool × List String :=
  if 0 ≤ index ∧ index < 9 ∧ cell b index.toNat = "" then
    (true, b.set index.toNat value)
  else
    (false, b)

/-- `GameBoard.resetBoard()`: `board = Array(9).fill("")`. -/
def resetBoard : List String :=
  List.replicate 9 ""

/-- A `Player` created by the `Player(name, marker)` factory: it exposes
exactly `getName` and `getMarker`, both constant. -/
structure Player where
  name : String
  marker : String
deriving DecidableEq, Repr

/-- The combined mutable state of the `GameBoard` and `GameController`
closures. -/
structure GameState where
  board : List String
  players : List Player
  currentPlayerIndex : Nat
  isGameOver : Bool
deriving DecidableEq, Repr

/-- The module-load state: `board = Array(9).fill("")`, `players = []`,
`currentPlayerIndex = 0`, `isGameOver = false`. -/
def initState : GameState :=
  { board := resetBoard, players := [], currentPlayerIndex := 0, isGameOver := false }

/-- `GameController.startGame(player1Name, player2Name)`: recreates the two
players with markers `"X"` and `"O"`, sets the turn index to 0, clears the
game-over flag and resets the board. -/
def startGame (s : GameState) (player1Name player2Name : String) : GameState :=
  { s with
    players := [⟨player1Name, "X"⟩, ⟨player2Name, "O"⟩]
    currentPlayerIndex := 0
    isGameOver := false
    board := resetBoard }

/-- `GameController.getCurrentPlayer()`: `players[currentPlayerIndex]`.
`none` models the JavaScript value `undefined` (index out of the array). -/
def getCurrentPlayer (s : GameState) : Option Player :=
  s.players.get? s.currentPlayerIndex

/-- `GameController.getIsGameOver()`. -/
def getIsGameOver (s : GameState) : Bool :=
  s.isGameOver

/-- `GameController.checkWinner()`, as a function of the board it reads.
The three row iterations (`i ∈ [0,3,6]`, cells `i, i+1, i+2`), then the
three column iterations (`i ∈ [0,1,2]`, cells `i, i+3, i+6`), then the two
diagonals `[0,4,8]` and `[2,4,6]` are unrolled in the source's exact
iteration order; each test is the source's
`row[0] === row[1] && row[1] === row[2] && row[0] !== ""`.
After the loops: `"tie"` when `!board.includes("")`, else `null`. -/
def checkWinner (b : List String) : Option String :=
  if cell b 0 = cell b 1 ∧ cell b 1 = cell b 2 ∧ cell b 0 ≠ "" then some (cell b 0)
  else if cell b 3 = cell b 4 ∧ cell b 4 = cell b 5 ∧ cell b 3 ≠ "" then some (cell b 3)
  else if cell b 6 = cell b 7 ∧ cell b 7 = cell b 8 ∧ cell b 6 ≠ "" then some (cell b 6)
  else if cell b 0 = cell b 3 ∧ cell b 3 = cell b 6 ∧ cell b 0 ≠ "" then some (cell b 0)
  else if cell b 1 = cell b 4 ∧ cell b 4 = cell b 7 ∧ cell b 1 ≠ "" then some (cell b 1)
  else if cell b 2 = cell b 5 ∧ cell b 5 = cell b 8 ∧ cell b 2 ≠ "" then some (cell b 2)
  else if cell b 0 = cell b 4 ∧ cell b 4 = cell b 8 ∧ cell b 0 ≠ "" then some (cell b 0)
  else if cell b 2 = cell b 4 ∧ cell b 4 = cell b 6 ∧ cell b 2 ≠ "" then some (cell b 2)
  else if "" ∈ b then none
  else some "tie"

/-- `GameController.switchPlayer()`: `currentPlayerIndex = 1 - currentPlayerIndex`. -/
def switchPlayer (s : GameState) : GameState :=
  { s with currentPlayerIndex := 1 - s.currentPlayerIndex }

/-- `GameController.playRound(index)`.  The source first checks
`isGameOver`, then evaluates `getCurrentPlayer().getMarker()` (which throws
a `TypeError` when `players` is empty — modelled by `Except.error`), then
calls `GameBoard.setCell`; on success it either switches the player (no
winner yet) or sets `isGameOver` (win or tie). -/
def playRound (s : GameState) (index : Int) : Except String (Bool × GameState) :=
  if s.isGameOver then
    .ok (false, s)
  else
    match getCurrentPlayer s with
    | none => .error "TypeError: getCurrentPlayer() is undefined"
    | some p =>
      let r := setCell s.board index p.marker
      if r.1 = false then
        .ok (false, { s with board := r.2 })
      else
        let s1 : GameState := { s with board := r.2 }
        match checkWinner s1.board with
        | none => .ok (true, switchPlayer s1)
        | some _ => .ok (true, { s1 with isGameOver := true })

/-- `GameController.resetGame()`: turn index 0, game-over flag cleared,
board reset; `players` untouched. -/
def resetGame (s : GameState) : GameState :=
  { s with currentPlayerIndex := 0, isGameOver := false, board := resetBoard }

/-- Runs `playRound` on each index of a list in turn, collecting the
returned booleans, and propagating a thrown fault.  This is the harness
used to state the end-to-end example of the spec. -/
def runMoves (s : GameState) : List Int → Except String (List Bool × GameState)
  | [] => .ok ([], s)
  | i :: rest =>
    match playRound s i with
    | .error e => .error e
    | .ok (b, s1) =>
      match runMoves s1 rest with
      | .error e => .error e
      | .ok (bs, s2) => .ok (b :: bs, s2)

/-- The eight winning lines in the scan order the spec states: the 3 rows
(starting indices 0, 3, 6), then the 3 columns, then the diagonals
`[0,4,8]` and `[2,4,6]`. -/
def specLines : List (Nat × Nat × Nat) :=
  [(0, 1, 2), (3, 4, 5), (6, 7, 8), (0, 3, 6), (1, 4, 7), (2, 5, 8), (0, 4, 8), (2, 4, 6)]

/-- One line test of the spec: a line is a win if its three cells are equal
and non-empty; the winner is that shared marker. -/
def lineWinner (b : List String) (t : Nat × Nat × Nat) : Option String :=
  if cell b t.1 = cell b t.2.1 ∧ cell b t.2.1 = cell b t.2.2 ∧ cell b t.1 ≠ "" then
    some (cell b t.1)
  else
    none

/-- The outcome function exactly as the spec words it: return the marker of
the first winning line in the fixed scan order; if no line wins and no
empty cell remains, `"tie"`; otherwise `none` (in progress). -/
def checkWinnerSpec (b : List String) : Option String :=
  match specLines.findSome? (lineWinner b) with
  | some m => some m
  | none => if "" ∈ b then none else some "tie"

/-- `true` exactly on `Except.error`, modelling a thrown JavaScript fault. -/
def throws {α : Type} : Except String α → Bool
  | .error _ => true
  | .ok _ => false

/-!
A reference model of JavaScript arrays, used only to settle the aliasing
question about `getBoard`.  The pure embedding above erases sharing, so we
model a heap of arrays addressed by reference and ask whether the value
`getBoard` hands to a caller aliases the `GameBoard` module's own array.
-/

/-- A heap of JavaScript arrays; a reference is an index into it. -/
structure JsHeap where
  arrays : List (List String)
deriving DecidableEq, Repr

/-- Dereference an array. -/
def readArr (h : JsHeap) (r : Nat) : List String :=
  h.arrays.getD r []

/-- A caller-side element assignment `a[i] = v` through reference `r`. -/
def writeArr (h : JsHeap) (r : Nat) (i : Nat) (v : String) : JsHeap :=
  ⟨h.arrays.set r ((readArr h r).set i v)⟩

/-- `GameBoard.getBoard: () => board` — it returns the module's array
reference itself, performing no copy. -/
def getBoardRef (boardRef : Nat) : Nat :=
  boardRef

/-- The states of the two modules reachable through the public interface:
any `startGame` call, followed by any sequence of `playRound` calls that do
not throw and `resetGame` calls. -/
inductive Reachable : GameState → Prop
  | start (s : GameState) (n1 n2 : String) : Reachable (startGame s n1 n2)
  | play (s s' : GameState) (index : Int) (b : Bool) :
      Reachable s → playRound s index = .ok (b, s') → Reachable s'
  | reset (s : GameState) : Reachable s → Reachable (resetGame s)

/-- A `startGame` performed on the module-load state, used as a concrete
sample state. -/
def demoStart : GameState :=
  startGame initState "A" "B"

/-- `demoStart` with the game-over flag raised, used as a concrete sample
terminal state. -/
def demoOver : GameState :=
  { demoStart with isGameOver := true }

/-! ## Helper lemmas -/

/-- A failed `setCell` leaves the board untouched. -/
theorem setCell_fail_frame (b : List String) (i : Int) (v : String)
    (h : (setCell b i v).1 = false) : (setCell b i v).2 = b := by
  unfold setCell at *
  split_ifs at h ⊢
  simp_all

/-- The freshly reset board has no winner and is not full. -/
theorem checkWinner_resetBoard : checkWinner resetBoard = none := by decide

/-! ## Claims -/

set_option maxHeartbeats 1000000 in
/-- C1: `checkWinner` is a pure function of the 9-cell board (in this
embedding it is literally a function of the board and returns no state).
On every board it agrees with the spec's description: scan the 3 rows
(starting indices 0, 3, 6), then the 3 columns, then the diagonals
`[0,4,8]` and `[2,4,6]`; return the marker of the first line whose three
cells are equal and non-empty in that fixed scan order; with no winning
line, return `"tie"` when no empty cell remains and in-progress (`none`)
otherwise. -/
theorem checkWinner_eq_spec : ∀ b : List String, checkWinner b = checkWinnerSpec b := by
  intro b
  simp only [checkWinner, checkWinnerSpec, specLines, lineWinner, List.findSome?_cons,
    List.findSome?_nil]
  split_ifs
  all_goals rfl

/-- C2: in any state with a current player and the game-over flag clear,
if the placement succeeds `playRound` returns `true` and either switches
the current-player index (outcome in progress) or raises the game-over
flag leaving the index unchanged (outcome win or tie); if the placement
fails it returns `false` and changes nothing at all. -/
theorem playRound_move_semantics (s : GameState) (index : Int) (p : Player)
    (hp : getCurrentPlayer s = some p) (hg : s.isGameOver = false) :
    ((setCell s.board index p.marker).1 = true →
      playRound s index = .ok (true,
        if checkWinner (setCell s.board index p.marker).2 = none then
          switchPlayer { s with board := (setCell s.board index p.marker).2 }
        else
          { s with board := (setCell s.board index p.marker).2, isGameOver := true }))
    ∧ ((setCell s.board index p.marker).1 = false →
        playRound s index = .ok (false, s)) := by
  constructor
  · intro hsucc
    simp only [playRound, hg, hp, hsucc]
    simp only [Bool.true_eq_false, if_false, reduceIte]
    cases hw : checkWinner (setCell s.board index p.marker).2 <;> simp [hw, switchPlayer]
  · intro hfail
    have hfr := setCell_fail_frame s.board index p.marker hfail
    simp [playRound, hg, hp, hfail, hfr]
    rw [← hg]

/-- C2 witness: on the fresh game `demoStart`, playing index 0 places
`"X"`, finds no winner and switches to player index 1. -/
theorem playRound_move_semantics_witness :
    playRound demoStart 0 =
      .ok (true,
        { board := ["X", "", "", "", "", "", "", "", ""],
          players := [⟨"A", "X"⟩, ⟨"B", "O"⟩],
          currentPlayerIndex := 1,
          isGameOver := false }) := by
  rw [(playRound_move_semantics demoStart 0 ⟨"A", "X"⟩ rfl rfl).1 rfl]
  rfl

/-- C3: terminal lock — with the game-over flag set, `playRound` returns
`false` and leaves the whole state (board, players, current-player index,
flag) exactly as it was. -/
theorem playRound_terminal_lock (s : GameState) (index : Int)
    (h : s.isGameOver = true) : playRound s index = .ok (false, s) := by
  simp [playRound, h]

/-- C3 witness: in the terminal sample state, playing index 4 is a
rejected no-op. -/
theorem playRound_terminal_lock_witness :
    playRound demoOver 4 = .ok (false, demoOver) :=
  playRound_terminal_lock demoOver 4 rfl

/-- C4: on a 9-cell board and a non-empty marker, `setCell` succeeds if
and only if the index is in `[0,9)` and the target cell is empty; on
success it writes exactly that cell (the written cell reads back as the
value, every other cell is unchanged), and on failure it mutates
nothing. -/
theorem setCell_correct (b : List String) (index : Int) (value : String)
    (hb : b.length = 9) (_hv : value ≠ "") :
    ((setCell b index value).1 = true ↔ 0 ≤ index ∧ index < 9 ∧ cell b index.toNat = "")
    ∧ ((setCell b index value).1 = true →
        (setCell b index value).2 = b.set index.toNat value
        ∧ cell (setCell b index value).2 index.toNat = value)
    ∧ ((setCell b index value).1 = false → (setCell b index value).2 = b)
    ∧ (∀ j : Nat, j ≠ index.toNat → cell (setCell b index value).2 j = cell b j) := by
  unfold setCell
  split_ifs with hc
  · refine ⟨by simp [hc], ?_, by simp, ?_⟩
    · intro _
      refine ⟨rfl, ?_⟩
      have hlt : index.toNat < b.length := by omega
      simp [cell, List.getD_eq_getElem?_getD, List.getElem?_set_eq_of_lt, hlt]
    · intro j hj
      simp [cell, List.getD_eq_getElem?_getD, List.getElem?_set_ne (Ne.symm hj)]
  · exact ⟨by simp [hc], by simp, by simp, fun j hj => rfl⟩

/-- C4 witness: writing `"X"` at index 4 of the fresh board succeeds,
stores it there, and leaves cell 0 alone. -/
theorem setCell_correct_witness :
    (setCell resetBoard 4 "X").1 = true
    ∧ (setCell resetBoard 4 "X").2 = resetBoard.set 4 "X"
    ∧ cell (setCell resetBoard 4 "X").2 0 = cell resetBoard 0 := by
  have h := setCell_correct resetBoard 4 "X" rfl (by decide)
  exact ⟨h.1.mpr (by decide), (h.2.1 (h.1.mpr (by decide))).1, h.2.2.2 0 (by decide)⟩

/-- C5 counterexample: `getBoard` is `() => board` — it hands out the live
internal array, not a defensive copy.  In the reference model of
JavaScript arrays, a caller-side write through the value `getBoard`
returns changes the `GameBoard` module's own array: starting from the heap
holding only the fresh board, the caller writes `"X"` at index 0 through
the returned reference, and the internal array is no longer the fresh
board — its cell 0 now reads `"X"`.  This refutes the claim that mutating
the returned sequence cannot change the Board's internal state. -/
theorem getBoard_not_defensive_copy :
    readArr (writeArr ⟨[resetBoard]⟩ (getBoardRef 0) 0 "X") 0 ≠ resetBoard
    ∧ cell (readArr (writeArr ⟨[resetBoard]⟩ (getBoardRef 0) 0 "X") 0) 0 = "X" := by
  decide

/-- C5 amended: `getBoard` returns the internal array itself (the same
reference, no copy), so every caller-side element write through the
returned value is observed verbatim by the Board's internal state. -/
theorem getBoard_alias_writes_through (h : JsHeap) (r i : Nat) (v : String)
    (hr : r < h.arrays.length) :
    readArr (writeArr h (getBoardRef r) i v) r = (readArr h r).set i v := by
  simp [readArr, writeArr, getBoardRef, List.getD_eq_getElem?_getD,
    List.getElem?_set_eq_of_lt, hr]

/-- C5 amended witness: on the singleton heap holding the fresh board, a
caller write of `"X"` at index 0 through `getBoard`'s return value updates
the internal array at index 0. -/
theorem getBoard_alias_writes_through_witness :
    readArr (writeArr ⟨[resetBoard]⟩ (getBoardRef 0) 0 "X") 0 = resetBoard.set 0 "X" :=
  getBoard_alias_writes_through ⟨[resetBoard]⟩ 0 0 "X" (by decide)

/-- C6 counterexample: in the module-load state (no `startGame` yet,
game-over flag clear, `players` empty), `playRound(0)` evaluates
`getCurrentPlayer().getMarker()` on `undefined` and throws a `TypeError`;
it does not return `false`.  This refutes the claim that `playRound`
before `startGame` is a no-op returning false and that no engine operation
propagates a thrown fault. -/
theorem playRound_before_start_throws :
    playRound initState 0 = .error "TypeError: getCurrentPlayer() is undefined"
    ∧ playRound initState 0 ≠ .ok (false, initState) := by
  refine ⟨rfl, ?_⟩
  simp [playRound, initState, getCurrentPlayer]

/-- C6 amended: `playRound` throws exactly in the uninitialized case — the
game-over flag clear and no player at the current index (as in the
module-load state, before any `startGame`).  In every other state — in
particular whenever a current player exists, and always once the game-over
flag is set — every failure is reported synchronously by returning
`false`, never by a thrown fault. -/
theorem playRound_throws_iff_not_started (s : GameState) (index : Int) :
    throws (playRound s index) = true ↔ s.isGameOver = false ∧ getCurrentPlayer s = none := by
  unfold playRound
  split_ifs with hg
  · simp [throws, hg]
  · cases hcp : getCurrentPlayer s with
    | none => simp [throws, hcp, hg]
    | some p =>
      simp only [hcp]
      split_ifs with hf
      · simp [throws, hg]
      · cases hw : checkWinner (setCell s.board index p.marker).2 <;> simp [throws, hw, hg]

/-- C7: `resetGame` sets the turn index to 0, clears the game-over flag
and resets all 9 cells to empty while leaving the players exactly as the
last `startGame` made them; in particular `startGame("A","B")` followed by
`resetGame` yields the fresh board, turn index 0, flag clear, and players
still named `"A"`/`"B"` with markers `"X"`/`"O"`. -/
theorem resetGame_state_spec :
    (∀ s : GameState,
      (resetGame s).players = s.players
      ∧ (resetGame s).currentPlayerIndex = 0
      ∧ (resetGame s).isGameOver = false
      ∧ (resetGame s).board = List.replicate 9 "")
    ∧ resetGame (startGame initState "A" "B") =
        { board := List.replicate 9 "", players := [⟨"A", "X"⟩, ⟨"B", "O"⟩],
          currentPlayerIndex := 0, isGameOver := false } :=
  ⟨fun _ => ⟨rfl, rfl, rfl, rfl⟩, rfl⟩

/-- C8: end-to-end — after `startGame("Ann","Bo")`, the five calls
`playRound 0, 3, 1, 4, 2` all return `true`, and afterwards the outcome is
a win for `"X"` (player 1's marker), the game is over, and the current
player is still the player named `"Ann"` holding marker `"X"`. -/
theorem end_to_end_ann_bo : ∃ sf : GameState,
    runMoves (startGame initState "Ann" "Bo") [0, 3, 1, 4, 2] =
      .ok ([true, true, true, true, true], sf)
    ∧ checkWinner sf.board = some "X"
    ∧ getIsGameOver sf = true
    ∧ getCurrentPlayer sf = some ⟨"Ann", "X"⟩ := by
  refine ⟨_, rfl, ?_, ?_, ?_⟩ <;> rfl

/-- C9: `setCell` never checks that the written value is a non-empty
marker: on an in-range empty cell, `setCell(i, "")` reports success while
every cell (including the target) keeps its old value, so a later
`setCell(i, m)` on the same index succeeds as well — the write-once rule
is bypassable through the public interface with the empty value. -/
theorem setCell_empty_value_bypass (b : List String) (index : Int) (m : String)
    (hb : b.length = 9) (h0 : 0 ≤ index) (h9 : index < 9)
    (he : cell b index.toNat = "") :
    (setCell b index "").1 = true
    ∧ (∀ j : Nat, cell (setCell b index "").2 j = cell b j)
    ∧ (setCell (setCell b index "").2 index m).1 = true := by
  have hc : 0 ≤ index ∧ index < 9 ∧ cell b index.toNat = "" := ⟨h0, h9, he⟩
  have hlt : index.toNat < b.length := by omega
  have hcells : ∀ j : Nat, cell ((setCell b index "").2) j = cell b j := by
    intro j
    unfold setCell
    rw [if_pos hc]
    by_cases hj : j = index.toNat
    · subst hj
      rw [he]
      simp [cell, List.getD_eq_getElem?_getD, List.getElem?_set_eq_of_lt, hlt]
    · simp [cell, List.getD_eq_getElem?_getD, List.getElem?_set_ne (Ne.symm hj)]
  refine ⟨?_, hcells, ?_⟩
  · unfold setCell
    rw [if_pos hc]
  · have he2 : cell (setCell b index "").2 index.toNat = "" := by
      rw [hcells index.toNat]; exact he
    unfold setCell
    rw [if_pos ⟨h0, h9, he2⟩]

/-- C9 witness: on the fresh board, `setCell(0, "")` reports success,
leaves cell 0 empty, and a subsequent `setCell(0, "X")` also succeeds. -/
theorem setCell_empty_value_bypass_witness :
    (setCell resetBoard 0 "").1 = true
    ∧ cell (setCell resetBoard 0 "").2 0 = cell resetBoard 0
    ∧ (setCell (setCell resetBoard 0 "").2 0 "X").1 = true := by
  have h := setCell_empty_value_bypass resetBoard 0 "X" rfl (by decide) (by decide) (by decide)
  exact ⟨h.1, h.2.1 0, h.2.2⟩

/-- C10: in every state reachable through the public interface (a
`startGame` followed by any `playRound` and `resetGame` calls),
`getIsGameOver` returns `true` exactly when `checkWinner` on the current
board reports a decided outcome (a winning marker or the tie value). -/
theorem gameOver_iff_board_decided (s : GameState) (h : Reachable s) :
    getIsGameOver s = true ↔ checkWinner s.board ≠ none := by
  induction h with
  | start s0 n1 n2 =>
    simp [startGame, getIsGameOver, checkWinner_resetBoard]
  | reset s0 hr ih =>
    simp [resetGame, getIsGameOver, checkWinner_resetBoard]
  | play s0 s' index b hr heq ih =>
    unfold playRound at heq
    split_ifs at heq with hg
    · simp only [Except.ok.injEq, Prod.mk.injEq] at heq
      obtain ⟨hb, hs⟩ := heq
      subst hs
      exact ih
    · cases hcp : getCurrentPlayer s0 with
      | none => rw [hcp] at heq; simp at heq
      | some p =>
        rw [hcp] at heq
        simp only at heq
        split_ifs at heq with hf
        · simp only [Except.ok.injEq, Prod.mk.injEq] at heq
          obtain ⟨hb, hs⟩ := heq
          have hfr := setCell_fail_frame s0.board index p.marker hf
          rw [hfr] at hs
          subst hs
          simpa [getIsGameOver] using ih
        · cases hw : checkWinner (setCell s0.board index p.marker).2 with
          | none =>
            rw [hw] at heq
            simp only [Except.ok.injEq, Prod.mk.injEq] at heq
            obtain ⟨hb, hs⟩ := heq
            subst hs
            simp [getIsGameOver, switchPlayer, hw]
            simp at hg
            exact hg
          | some w =>
            rw [hw] at heq
            simp only [Except.ok.injEq, Prod.mk.injEq] at heq
            obtain ⟨hb, hs⟩ := heq
            subst hs
            simp [getIsGameOver, hw]

/-- C10 witness: the freshly started sample game is reachable, its flag is
clear and its board undecided. -/
theorem gameOver_iff_board_decided_witness :
    getIsGameOver (startGame initState "A" "B") = true ↔
      checkWinner (startGame initState "A" "B").board ≠ none :=
  gameOver_iff_board_decided (startGame initState "A" "B")
    (Reachable.start initState "A" "B")

end TicTacToe
